import Mathlib

/-!
Verification development for the CrawlRead content-ingestion pipeline.

Each definition is a shallow embedding of a function of the Python source,
translated statement by statement.  Python strings are modelled as
List Char (sequences of Unicode code points) or, where a function works on
encoded bytes, as List Nat with every element below 256.  Python dicts with
known keys become structures with Option fields, exceptions become Except
or Option results, and the filesystem and network are passed explicitly as
values.  The modelled source files are named on every section.
-/

namespace CrawlRead

/-! Generic helpers for Python string operations used by several services. -/

/-- Tests whether the pattern list is a leading segment of the second list.
Used to model Python substring tests and str.startswith. -/
def startsWithPat : List Char → List Char → Bool
  | [], _ => true
  | _ :: _, [] => false
  | p :: ps, c :: cs => p == c && startsWithPat ps cs

/-- Models the Python expression pat in s for strings: true when pat occurs
as a contiguous sublist (the empty pattern is contained everywhere). -/
def containsSub (pat : List Char) : List Char → Bool
  | [] => pat.isEmpty
  | c :: cs => startsWithPat pat (c :: cs) || containsSub pat cs

/-- Index of the first occurrence of the pattern, if any. -/
def findSubIdx (pat : List Char) : List Char → Option Nat
  | [] => if pat.isEmpty then some 0 else none
  | c :: cs =>
    if startsWithPat pat (c :: cs) then some 0
    else (findSubIdx pat cs).map (· + 1)

/-- Characters stripped by Python str.strip with no arguments (the Unicode
whitespace set of CPython), given as a predicate on code points. -/
def pyIsSpaceCp (c : Nat) : Bool :=
  decide (c = 9 ∨ c = 10 ∨ c = 11 ∨ c = 12 ∨ c = 13 ∨
    (28 ≤ c ∧ c ≤ 32) ∨ c = 133 ∨ c = 160 ∨ c = 5760 ∨
    (8192 ≤ c ∧ c ≤ 8202) ∨ c = 8232 ∨ c = 8233 ∨ c = 8239 ∨ c = 8287 ∨ c = 12288)

/-- Python str.strip with no arguments, on code-point lists. -/
def pyStripCp (cs : List Nat) : List Nat :=
  ((cs.dropWhile pyIsSpaceCp).reverse.dropWhile pyIsSpaceCp).reverse

/-- Python str.strip with no arguments, on character lists. -/
def pyStripC (cs : List Char) : List Char :=
  ((cs.dropWhile fun c => pyIsSpaceCp c.toNat).reverse.dropWhile
    fun c => pyIsSpaceCp c.toNat).reverse

/-- Models the Python expression url.split(sep)[-1] for a one-character
separator: the segment after the last occurrence of the separator. -/
def lastSegAfter (sep : Char) (acc : List Char) : List Char → List Char
  | [] => acc
  | c :: cs => if c == sep then lastSegAfter sep [] cs else lastSegAfter sep (acc ++ [c]) cs

/-! Embedding of app/services/article/schedule_service.py
(class ArticleSchedulerService).  The mutable attributes of the service
object form the state record; each method becomes a state transformer. -/

/-- Article stub from app/models/monitor_entities.py: url is the identity,
summary and image_src are optional. -/
structure MonitorArticle where
  url : String
  title : String
  summary : Option String := none
  image_src : Option String := none
deriving DecidableEq, Repr

/-- Mutable state of ArticleSchedulerService: the pending queue
(field article_queue models self dot underscore article_queue), the processed
URL set (kept as a list, membership models set membership), the round-robin
cursor, the refresh exclusion flag, and the APScheduler state (running flag
plus the ids of armed jobs). -/
structure SchedState where
  article_queue : List MonitorArticle
  processed_articles : List String
  current_index : Nat
  fetching_active : Bool
  scheduler_running : Bool
  scheduler_jobs : List String
deriving DecidableEq, Repr

/-- Embedding of ArticleSchedulerService.shutdown (lines 93 to 99): when the
scheduler is running it is shut down (APScheduler cancels its jobs), then the
article queue is cleared unconditionally.  No other attribute is touched. -/
def shutdown (s : SchedState) : SchedState :=
  let s1 :=
    if s.scheduler_running then
      { s with scheduler_running := false, scheduler_jobs := [] }
    else s
  { s1 with article_queue := [] }

/-- Placeholder article used to make list indexing total; every access in the
proofs is shown to be in bounds, so the placeholder is never the value read. -/
def defaultArticle : MonitorArticle := { url := "", title := "" }

/-- The cursor value actually used to index the queue in
process_next_article (lines 182 to 183): reset to 0 when the stored cursor
is at or past the end of the queue, otherwise the stored cursor. -/
def normIdx (s : SchedState) : Nat :=
  if s.article_queue.length ≤ s.current_index then 0 else s.current_index

/-- Result of one pass of process_next_article up to the point where it either
returns, recurses, or commits to extracting one article.  idle is the
empty-queue early return (which fires an asynchronous refresh), again is the
skip-and-recurse branch for an already-processed article (line 191), and
extract carries the article handed to the extractor. -/
inductive ProcessStepResult where
  | idle (s : SchedState)
  | again (s : SchedState)
  | extract (a : MonitorArticle) (s : SchedState)
deriving DecidableEq, Repr

/-- State carried by a ProcessStepResult. -/
def stateOf : ProcessStepResult → SchedState
  | .idle s => s
  | .again s => s
  | .extract _ s => s

/-- One pass of process_next_article (lines 172 to 191): empty-queue early
return; lazy cursor reset; read the article at the cursor; advance the
cursor; skip (recurse) when the article is already processed, otherwise
yield it for extraction. -/
def processStep (s : SchedState) : ProcessStepResult :=
  if s.article_queue = [] then .idle s
  else
    let i := normIdx s
    let a := s.article_queue.getD i defaultArticle
    let s2 := { s with current_index := i + 1 }
    if a.url ∈ s.processed_articles then .again s2 else .extract a s2

/-- The recursion of process_next_article on the skip branch, made explicit
with a step budget: the Python code has no bound and simply calls itself, so
divergence of the source appears here as the absence of any budget under
which the iteration returns. -/
def processNextIter : Nat → SchedState → Option ProcessStepResult
  | 0, _ => none
  | Nat.succ n, s =>
    match processStep s with
    | .again s2 => processNextIter n s2
    | r => some r

/-- Holds when the queue slot at position p carries a URL outside the
processed set. -/
def unprocAt (s : SchedState) (p : Nat) : Prop :=
  (s.article_queue.getD p defaultArticle).url ∉ s.processed_articles

instance (s : SchedState) (p : Nat) : Decidable (unprocAt s p) := by
  unfold unprocAt; infer_instance

/-! Concurrency model of fetch_article_list (lines 101 to 170).  The check of
the fetching_active flag and its assignment to True happen with no await
point in between, so on the single-threaded event loop they are one atomic
step; the finally block (line 170) and the early no-configuration return
(line 117) clear the flag when a body finishes.  The transition system below
records the flag together with the number of refresh bodies in flight. -/

/-- Observable refresh state: the exclusion flag and how many refresh bodies
are currently executing. -/
structure RefreshSys where
  fetching_active : Bool
  in_flight : Nat
deriving DecidableEq, Repr

/-- Transitions of the refresh subsystem.  trigger_skip is the early return
at lines 103 to 105 (flag already set, nothing starts); trigger_run is the
atomic check-and-set at lines 103 to 107 followed by entry into the body;
finish is the completion of a body through the finally block at line 170 or
the early return at lines 117 to 118, both of which clear the flag. -/
inductive RefreshStep : RefreshSys → RefreshSys → Prop where
  | trigger_skip (s : RefreshSys) : s.fetching_active = true → RefreshStep s s
  | trigger_run (s : RefreshSys) : s.fetching_active = false →
      RefreshStep s { fetching_active := true, in_flight := s.in_flight + 1 }
  | finish (s : RefreshSys) : 0 < s.in_flight →
      RefreshStep s { fetching_active := false, in_flight := s.in_flight - 1 }

/-- Initial refresh state of a freshly constructed service (line 41). -/
def initRefreshSys : RefreshSys := { fetching_active := false, in_flight := 0 }

/-- States reachable from the initial state by refresh transitions. -/
def RefreshReachable : RefreshSys → Prop :=
  Relation.ReflTransGen RefreshStep initRefreshSys

/-- Completion outcomes of one fetch_article_list body: the configuration
lookup found nothing (lines 115 to 118), the body ran to the end, or it
raised and was caught at line 167. -/
inductive FetchBodyOutcome where
  | noConfig
  | completed
  | raised
deriving DecidableEq, Repr

/-- Flag-level summary of one fetch_article_list call: given the flag at
trigger time and how the body would end, returns whether a refresh body ran
and the flag after the call returns.  With the flag set the call returns at
once and changes nothing; otherwise the flag is cleared on every completion
path, including the exception path, by the finally block. -/
def fetch_article_list (fetching_active : Bool) (body : FetchBodyOutcome) :
    Bool × Bool :=
  if fetching_active then (false, true)
  else
    match body with
    | .noConfig => (false, false)
    | .completed => (true, false)
    | .raised => (true, false)

/-! Embedding of app/services/storage_service.py
(class ArticleStorageService). -/

/-- Characters replaced by an underscore in sanitize_filename
(the regex class backslash slash star question colon quote less greater
pipe). -/
def invalidFilenameChar (c : Char) : Bool :=
  c == '\\' || c == '/' || c == '*' || c == '?' || c == ':' ||
  c == '"' || c == '<' || c == '>' || c == '|'

/-- Embedding of ArticleStorageService.sanitize_filename (lines 17 to 24):
replace invalid path characters by an underscore, then truncate to 100
characters. -/
def sanitize_filename (name : List Char) : List Char :=
  (name.map fun c => if invalidFilenameChar c then '_' else c).take 100

/-- Helper for the regex title search: scans for the closing title tag with
no intervening newline (the dot of the pattern does not match a newline),
returning the group characters before it. -/
def titleGroupFrom : List Char → Option (List Char)
  | [] => none
  | c :: cs =>
    if startsWithPat ("</title>".toList) (c :: cs) then some []
    else if c == '\n' then none
    else (titleGroupFrom cs).map fun g => c :: g

/-- Embedding of re.search applied to the pattern
open title tag, non-greedy group, close title tag (storage_service.py
line 45): the first opening tag followed on the same line stretch by a
closing tag yields the shortest group; positions with no closing tag before
a newline are skipped, as regex backtracking does. -/
def searchTitleTag : List Char → Option (List Char)
  | [] => none
  | c :: cs =>
    if startsWithPat ("<title>".toList) (c :: cs) then
      match titleGroupFrom (cs.drop 6) with
      | some g => some g
      | none => searchTitleTag cs
    else searchTitleTag cs

/-- Python str.title restricted to ASCII letters (the slugs handled here are
ASCII URL components): a letter after a non-letter is uppercased, a letter
after a letter is lowercased. -/
def pyTitleCase : Bool → List Char → List Char
  | _, [] => []
  | prevAlpha, c :: cs =>
    let isA := c.isAlpha
    let c2 := if isA then (if prevAlpha then c.toLower else c.toUpper) else c
    c2 :: pyTitleCase isA cs

/-- The article dict consumed by save_article; absent keys are none and the
get defaults of the source are applied in the embedding of the function. -/
structure ArticleData where
  title : Option (List Char) := none
  content : Option (List Char) := none
  url : Option (List Char) := none

/-- Title derivation of save_article (lines 40 to 58): the title field if
truthy or if the content is empty too; otherwise the first embedded title
tag, else the URL slug with dashes as spaces in title case, else a timestamp
name.  The event-loop clock is passed in as now. -/
def derive_title (d : ArticleData) (now : Nat) : List Char :=
  let title := d.title.getD []
  let content := d.content.getD []
  if title = [] ∧ content ≠ [] then
    match searchTitleTag content with
    | some g => g
    | none =>
      let url := d.url.getD []
      if url ≠ [] then
        pyTitleCase false
          ((lastSegAfter '/' [] url).map fun c => if c == '-' then ' ' else c)
      else ("article_" ++ toString now).toList
  else title

/-- The filename save_article writes under (line 66): sanitized derived
title plus the html extension. -/
def saveFilename (d : ArticleData) (now : Nat) : List Char :=
  sanitize_filename (derive_title d now) ++ ".html".toList

/-- The article directory, modelled as an association of filenames to file
contents. -/
abbrev FileSys : Type := List (List Char × List Char)

/-- Models os.path.exists for the article directory. -/
def fsHas (fs : FileSys) (name : List Char) : Bool :=
  fs.any fun e => e.1 == name

/-- Embedding of ArticleStorageService.save_article (lines 26 to 88): derive
the filename; if a file of that name exists return True without writing
(lines 70 to 72); otherwise write the content and return True.  Disk errors
are outside the model, so the exception branch returning False does not
arise. -/
def save_article (d : ArticleData) (now : Nat) (fs : FileSys) : Bool × FileSys :=
  let fname := saveFilename d now
  if fsHas fs fname then (true, fs)
  else (true, fs ++ [(fname, d.content.getD [])])

/-! Embedding of app/services/html_content_service.py
(class HTMLContentService) together with the two library codecs it relies
on: urlsafe Base64 over bytes, and UTF-8 between code points and bytes. -/

/-- The urlsafe Base64 alphabet of base64.urlsafe_b64encode. -/
def b64Alphabet : List Char :=
  "ABCDEFGHIJKLMNOPQRSTUVWXYZabcdefghijklmnopqrstuvwxyz0123456789-_".toList

/-- Character for a six-bit value; values outside the alphabet never occur
on the paths proved below. -/
def b64Char (n : Nat) : Char := b64Alphabet.getD n '='

/-- Six-bit value of an alphabet character. -/
def b64Index (c : Char) : Option Nat :=
  b64Alphabet.findIdx? fun x => x == c

/-- Base64 encoding of a byte list with padding, three bytes to four
characters, as base64.urlsafe_b64encode produces it. -/
def b64EncodeBytes : List Nat → List Char
  | [] => []
  | [a] => [b64Char (a / 4), b64Char (a % 4 * 16), '=', '=']
  | [a, b] => [b64Char (a / 4), b64Char (a % 4 * 16 + b / 16), b64Char (b % 16 * 4), '=']
  | a :: b :: c :: rest =>
    b64Char (a / 4) :: b64Char (a % 4 * 16 + b / 16) ::
      b64Char (b % 16 * 4 + c / 64) :: b64Char (c % 64) :: b64EncodeBytes rest

/-- Base64 decoding as base64.urlsafe_b64decode performs it on well-formed
input: four characters to three bytes, with the two padded tail forms; any
other shape raises in Python and is none here. -/
def b64DecodeChars : List Char → Option (List Nat)
  | [] => some []
  | c0 :: c1 :: c2 :: c3 :: rest =>
    if rest = [] ∧ c2 = '=' ∧ c3 = '=' then
      match b64Index c0, b64Index c1 with
      | some v0, some v1 => some [v0 * 4 + v1 / 16]
      | _, _ => none
    else if rest = [] ∧ c3 = '=' then
      match b64Index c0, b64Index c1, b64Index c2 with
      | some v0, some v1, some v2 => some [v0 * 4 + v1 / 16, v1 % 16 * 16 + v2 / 4]
      | _, _, _ => none
    else
      match b64Index c0, b64Index c1, b64Index c2, b64Index c3, b64DecodeChars rest with
      | some v0, some v1, some v2, some v3, some ds =>
        some ((v0 * 4 + v1 / 16) :: (v1 % 16 * 16 + v2 / 4) :: (v2 % 4 * 64 + v3) :: ds)
      | _, _, _, _, _ => none
  | _ => none

/-- UTF-8 encoding of one code point (str.encode with encoding utf-8). -/
def utf8EncodeCp (c : Nat) : List Nat :=
  if c < 128 then [c]
  else if c < 2048 then [192 + c / 64, 128 + c % 64]
  else if c < 65536 then [224 + c / 4096, 128 + c / 64 % 64, 128 + c % 64]
  else [240 + c / 262144, 128 + c / 4096 % 64, 128 + c / 64 % 64, 128 + c % 64]

/-- UTF-8 encoding of a code-point list. -/
def utf8Encode : List Nat → List Nat
  | [] => []
  | c :: cs => utf8EncodeCp c ++ utf8Encode cs

/-- One step of UTF-8 decoding: from a leading byte and the remaining
bytes, the decoded code point and the rest, by leading-byte ranges;
truncated sequences are none.  Checks on continuation bytes are elided,
which is sound for the encoder outputs handled in the proofs. -/
def utf8DecodeOne (b0 : Nat) (rest : List Nat) : Option (Nat × List Nat) :=
  if b0 < 128 then some (b0, rest)
  else if b0 < 192 then none
  else if b0 < 224 then
    match rest with
    | b1 :: rest2 => some ((b0 - 192) * 64 + (b1 - 128), rest2)
    | [] => none
  else if b0 < 240 then
    match rest with
    | b1 :: b2 :: rest3 => some ((b0 - 224) * 4096 + (b1 - 128) * 64 + (b2 - 128), rest3)
    | _ => none
  else
    match rest with
    | b1 :: b2 :: b3 :: rest4 =>
      some ((b0 - 240) * 262144 + (b1 - 128) * 4096 + (b2 - 128) * 64 + (b3 - 128), rest4)
    | _ => none

set_option maxRecDepth 4096 in
/-- UTF-8 decoding (bytes.decode with encoding utf-8), one code point at a
time. -/
def utf8Decode (bs : List Nat) : Option (List Nat) :=
  match bs with
  | [] => some []
  | b0 :: rest =>
    match h : utf8DecodeOne b0 rest with
    | some cp => (utf8Decode cp.2).map (cp.1 :: ·)
    | none => none
termination_by bs.length
decreasing_by
  simp only [utf8DecodeOne] at h
  split_ifs at h with h1 h2 h3 h4
  · cases h
    simp
  · split at h
    · cases h
      simp
      omega
    · cases h
  · split at h
    · cases h
      simp
      omega
    · cases h
  · split at h
    · cases h
      simp
      omega
    · cases h

/-- Embedding of HTMLContentService.encode_title_to_filename (lines 18 to
31): an all-whitespace title is replaced by a timestamp name; the title is
UTF-8 encoded then Base64 encoded; a truthy article id is prepended with an
underscore; the html extension is appended.  Titles are code-point lists,
the article id and the filename are character lists, and the empty article
id models both None and the empty string (both falsy). -/
def encode_title_to_filename (title : List Nat) (article_id : List Char)
    (now : Nat) : List Char :=
  let t := if pyStripCp title = [] then
      ("untitled_" ++ toString now).toList.map Char.toNat
    else title
  let encoded := b64EncodeBytes (utf8Encode t)
  if article_id ≠ [] then article_id ++ '_' :: encoded ++ ".html".toList
  else encoded ++ ".html".toList

/-- Models str.replace of the html extension by the empty string: every
occurrence is removed, scanning left to right. -/
def removeHtmlAll (cs : List Char) : List Char :=
  match cs with
  | [] => []
  | c :: rest =>
    if startsWithPat (".html".toList) (c :: rest) then removeHtmlAll (rest.drop 4)
    else c :: removeHtmlAll rest
termination_by cs.length
decreasing_by
  all_goals simp [List.length_drop]
  all_goals omega

/-- Models str.split with separator underscore and maxsplit 1: the part
before the first underscore, and the rest when an underscore exists. -/
def splitOnceUnderscore : List Char → List Char × Option (List Char)
  | [] => ([], none)
  | c :: rest =>
    if c == '_' then ([], some rest)
    else
      let r := splitOnceUnderscore rest
      (c :: r.1, r.2)

/-- Python str.isdigit restricted to ASCII digits: true on a non-empty list
of digits. -/
def pyIsDigitStr (cs : List Char) : Bool :=
  !cs.isEmpty && cs.all Char.isDigit

/-- Embedding of HTMLContentService.decode_title_from_filename (lines 33 to
48): remove the html extension, split off a leading all-digit id before the
first underscore, Base64 then UTF-8 decode; when either decode raises the
except branch returns the name with underscores as spaces. -/
def decode_title_from_filename (filename : List Char) : List Nat :=
  let name := removeHtmlAll filename
  let p := splitOnceUnderscore name
  let encoded_part :=
    match p.2 with
    | some tail => if pyIsDigitStr p.1 then tail else name
    | none => name
  let fallback := (name.map fun c => if c == '_' then ' ' else c).map Char.toNat
  match b64DecodeChars encoded_part with
  | some bytes =>
    match utf8Decode bytes with
    | some cps => cps
    | none => fallback
  | none => fallback

/-! Embedding of app/services/article_service.py
(class ArticleParserService) over the fetch-result model of
app/models/http_entities.py. -/

/-- The body of a fetch result as a Python value: absent, text, or bytes. -/
inductive PyContent where
  | pyNone
  | pyStr (s : List Char)
  | pyBytes (b : List Nat)
deriving DecidableEq, Repr

/-- Fetch result fields read by parse_article_list. -/
structure FetchResult where
  url : List Char
  content_type : Option (List Char)
  content : PyContent

/-- Response record of parse_article_list (ArticleListResponse of
app/models/monitor_entities.py); the section identifier field is named
sect because section is reserved here. -/
structure ArticleListResponse where
  success : Bool
  website : String
  sect : String
  error : Option (List Char) := none
  articles : Option (List MonitorArticle) := none

/-- List of stubs returned by the listing parser. -/
structure MonitorArticleList where
  articles : List MonitorArticle

/-- Models the call at article_service.py line 79: parse_article_list
invokes parse_html with two positional arguments, but parse_html as defined
at html_parser.py line 6 accepts exactly one, so in Python the call itself
raises TypeError before any parsing work happens.  The embedding returns
that error unconditionally, carrying the CPython message text. -/
def parse_html_two_arg_call (_content : List Char) (_k : Int) :
    Except (List Char) MonitorArticleList :=
  Except.error ("parse_html() takes 1 positional argument but 2 were given".toList)

/-- The content-type guard of parse_article_list (line 58): the field must
be truthy and contain the html media type case-insensitively. -/
def contentTypeIsHtml (ct : Option (List Char)) : Bool :=
  match ct with
  | none => false
  | some s => !s.isEmpty && containsSub ("text/html".toList) (s.map Char.toLower)

/-- Embedding of ArticleParserService.parse_article_list (lines 30 to 99):
the guard chain for a missing result, a non-html content type and a
non-string body, then the try block whose first statement is the two
argument call to parse_html; the TypeError it raises lands in the except
branch, which returns a failure response with the exception text. -/
def parse_article_list (website sect : String) (fetch_result : Option FetchResult) :
    ArticleListResponse :=
  match fetch_result with
  | none =>
    { success := false, website := website, sect := sect,
      error := some ("获取结果为空".toList) }
  | some fr =>
    if ¬ contentTypeIsHtml fr.content_type then
      { success := false, website := website, sect := sect,
        error := some ("不支持的内容类型".toList) }
    else
      match fr.content with
      | .pyStr s =>
        match parse_html_two_arg_call s (-1) with
        | .ok al =>
          { success := true, website := website, sect := sect,
            articles := some al.articles }
        | .error e =>
          { success := false, website := website, sect := sect,
            error := some ("解析HTML内容失败: ".toList ++ e) }
      | _ =>
        { success := false, website := website, sect := sect,
          error := some ("无法解析非文本内容".toList) }

/-! Embedding of app/services/article_extractor_service.py
(class ArticleExtractor).  The BeautifulSoup view of a fetched page is
modelled by a record of the query results the extractor reads: whether each
of the five container selectors matches, the metadata title, and the
rendered parts that the content walk of a found container would produce
(the walk itself transforms markup the claims do not touch, so its output
list is carried as data). -/

/-- Query results of the soup for one page. -/
structure SoupModel where
  eza_body : Bool
  div_prem : Bool
  article_tag : Bool
  story_content : Bool
  article_body : Bool
  meta_title : Option (List Char)
  header_html : Option (List Char)
  main_image : Option (List Char)
  body_parts : List (List Char)

/-- True when some container selector of extract_body_from_html matches:
the primary eza-body lookup (line 48) or one of the four alternative
selectors (lines 52 to 57), tried in order. -/
def containerFound (soup : SoupModel) : Bool :=
  soup.eza_body || soup.div_prem || soup.article_tag ||
  soup.story_content || soup.article_body

/-- The style block of the create_html_document helper (lines 368 to 439),
kept as one text constant; braces of the CSS are written as escapes. -/
def extractorStyle : String :=
  "\n        <style>\n            body \x7b \n                font-family: \"Georgia\", \"Times New Roman\", serif; \n                line-height: 1.7; \n                padding: 20px; \n                max-width: 800px; \n                margin: auto; \n                background-color: #fafafa; \n                color: #333; \n            \x7d\n            h1 \x7b \n                color: #1a1a1a; \n                margin: 0.5em 0; \n                font-size: 2em; \n                line-height: 1.2; \n                border-bottom: 2px solid #2c5aa0; \n                padding-bottom: 10px;\n            \x7d\n            h2, h3, h4 \x7b \n                color: #2a2a2a; \n                margin-top: 1.8em; \n                margin-bottom: 0.5em;\n                border-bottom: 1px solid #ddd; \n                padding-bottom: 5px;\n            \x7d\n            h2 \x7b font-size: 1.5em; \x7d\n            h3 \x7b font-size: 1.3em; \x7d\n            h4 \x7b font-size: 1.1em; \x7d\n            p \x7b \n                margin: 1.2em 0; \n                text-align: justify; \n                text-indent: 1.5em;\n            \x7d\n            .article-summary \x7b text-indent: 0 !important; \x7d\n            .article-byline \x7b text-indent: 0 !important; \x7d\n            .article-category \x7b text-indent: 0 !important; \x7d\n            figure \x7b \n                border: none; \n                margin: 2em 0;\n            \x7d\n            img \x7b \n                border: 1px solid #ddd; \n                border-radius: 6px; \n                padding: 4px; \n                background: white; \n            \x7d\n            blockquote \x7b\n                background: #f9f9f9;\n                border-left: 4px solid #2c5aa0;\n                margin: 1.5em 0;\n                padding: 1em 1.5em;\n                font-style: italic;\n            \x7d\n            ul, ol \x7b\n                margin: 1em 0;\n                padding-left: 2em;\n            \x7d\n            li \x7b\n                margin: 0.5em 0;\n            \x7d\n            a \x7b\n                color: #2c5aa0;\n                text-decoration: none;\n                border-bottom: 1px dotted #2c5aa0;\n            \x7d\n            a:hover \x7b\n                color: #1a3d6b;\n                border-bottom: 1px solid #1a3d6b;\n            \x7d\n        </style>\n        "

/-- Opening of the document produced by create_html_document, up to the
title element; the single quotes of the source are written as escapes. -/
def docHead : List Char :=
  "<!DOCTYPE html><html lang=\x27en\x27><head><meta charset=\x27UTF-8\x27><meta name=\x27viewport\x27 content=\x27width=device-width, initial-scale=1.0\x27><title>".toList

/-- Embedding of the create_html_document helper (lines 366 to 442): a full
document wrapping the given body, with the given title in the head. -/
def create_html_document (body_content : List Char) (title : List Char) : List Char :=
  docHead ++ title ++ "</title>".toList ++ extractorStyle.toList ++
  "</head><body>".toList ++ body_content ++ "</body></html>".toList

/-- The error text of the missing-container branch (line 68). -/
def noContainerMsg : List Char := "错误：在此页面未找到指定的文章正文容器。".toList

/-- The error text of the empty-extraction branch (line 168). -/
def noContentMsg : List Char := "错误：未能提取任何有效的文章内容。".toList

/-- The metadata title with the default Error, as the two error branches
read it (lines 69 and 169). -/
def metaTitleOrError (soup : SoupModel) : List Char :=
  soup.meta_title.getD ("Error".toList)

/-- The metadata title with the default Extracted Article (line 176). -/
def metaTitleOrExtracted (soup : SoupModel) : List Char :=
  soup.meta_title.getD ("Extracted Article".toList)

/-- Embedding of ArticleExtractor.extract_body_from_html (lines 37 to 177)
at the level of its branch structure: when no container selector matches,
the rendered error document of line 67; otherwise the parts list is
assembled from header, main image and walked body parts, the
nothing-extractable guard of line 165 yields the second error document, and
otherwise the parts are joined into a document. -/
def extract_body_from_html (soup : SoupModel) : List Char :=
  if ¬ containerFound soup then
    create_html_document noContainerMsg (metaTitleOrError soup)
  else
    let parts0 : List (List Char) :=
      (match soup.header_html with | some h => [h] | none => []) ++
      (match soup.main_image with | some m => [m] | none => []) ++
      soup.body_parts
    if parts0 = [] ∨ (parts0.length ≤ 2 ∧ soup.main_image.isSome) then
      create_html_document noContentMsg (metaTitleOrError soup)
    else
      create_html_document (parts0.foldl (· ++ ·) []) (metaTitleOrExtracted soup)

/-- Result of make_request as extract_single_article reads it: the error
field, and the content when present and truthy, already viewed through
BeautifulSoup as a SoupModel. -/
structure MakeRequestResult where
  error : Option (List Char)
  content : Option SoupModel

/-- Extraction result dict of extract_single_article. -/
structure ExtractionResult where
  url : String
  title : String
  content : List Char
  success : Bool

/-- Embedding of ArticleExtractor.extract_single_article (lines 444 to 479):
a transport error or empty body yields a failure result wrapping an error
document; otherwise the result wraps the output of extract_body_from_html
and carries success True on this path unconditionally (lines 462 to 469). -/
def extract_single_article (article : MonitorArticle) (fetch : MakeRequestResult) :
    ExtractionResult :=
  let errText := match fetch.error with
    | some e => e
    | none => "None".toList
  match fetch.content with
  | none =>
    { url := article.url, title := article.title,
      content := create_html_document ("错误：无法从URL获取内容。".toList ++ errText)
        ("Article".toList),
      success := false }
  | some soup =>
    match fetch.error with
    | some _ =>
      { url := article.url, title := article.title,
        content := create_html_document ("错误：无法从URL获取内容。".toList ++ errText)
          ("Article".toList),
        success := false }
    | none =>
      { url := article.url, title := article.title,
        content := extract_body_from_html soup,
        success := true }

/-! Embedding of app/services/article/image_downloader.py
(function download_image).  The network, the filesystem probe and the PIL
codec are explicit inputs: the hash of the URL is carried as a value, the
response is a status with a body or a typed failure, and the JPEG encoder
at a given quality is a function from quality to output bytes. -/

/-- Result record of download_image (dataclass DownloadResult). -/
structure DownloadResult where
  success : Bool
  local_path : Option (List Char) := none
  error_message : Option (List Char) := none
  file_size : Option Nat := none
  original_size : Option Nat := none

/-- Outcome of the aiohttp get call. -/
inductive NetOutcome where
  | timeout
  | raised (msg : List Char)
  | ok (status : Nat) (body : List Nat)

/-- External effects of one download_image call: the md5 hash prefix of the
URL, whether the target file already exists and its size, the network
outcome, whether PIL opens and re-encodes the body without raising, the
JPEG encoder indexed by quality, and the single-shot encoding for non-JPEG
formats. -/
structure ImageEnv where
  url_hash : List Char
  file_exists : Bool
  existing_size : Nat
  net : NetOutcome
  decode_ok : Bool
  encode : Nat → List Nat
  encode_other : List Nat

/-- The path component of urlparse: the part after scheme and host, cut
before query and fragment. -/
def urlPath (url : List Char) : List Char :=
  let rest :=
    match findSubIdx ("://".toList) url with
    | some i => (url.drop (i + 3)).dropWhile fun c => c != '/'
    | none => url
  rest.takeWhile fun c => c != '?' && c != '#'

/-- Extension part of os.path.splitext on a reversed basename with leading
dots removed: the characters after the last dot, with the dot. -/
def extFromRev (acc : List Char) : List Char → List Char
  | [] => []
  | c :: cs => if c == '.' then '.' :: acc else extFromRev (c :: acc) cs

/-- The lowercased extension download_image reads from the URL path
(lines 58 to 62). -/
def rawExt (url : List Char) : List Char :=
  (extFromRev []
    (((lastSegAfter '/' [] (urlPath url)).dropWhile fun c => c == '.').reverse)).map
    Char.toLower

/-- The extension after the whitelist check of line 63: empty, overlong or
unrecognized extensions fall back to jpg. -/
def normalizeExt (url : List Char) : List Char :=
  let e := rawExt url
  if e = [] ∨ 5 < e.length ∨
      ¬ (e = ".jpg".toList ∨ e = ".jpeg".toList ∨ e = ".png".toList ∨
         e = ".gif".toList ∨ e = ".webp".toList) then
    ".jpg".toList
  else e

/-- Whether the save format resolved at line 113 is JPEG. -/
def extIsJpeg (url : List Char) : Bool :=
  normalizeExt url == ".jpg".toList || normalizeExt url == ".jpeg".toList

/-- The quality-stepping loop of download_image (lines 128 to 138): while
the data exceeds the byte budget and the quality is above 40, drop the
quality by 10 and re-encode; the inner break makes one final encode at or
below 40 the last.  Returns the final quality and data. -/
def qualityLoop (encode : Nat → List Nat) (max_file_size : Nat)
    (cq : Nat) (data : List Nat) : Nat × List Nat :=
  if h : max_file_size < data.length ∧ 40 < cq then
    let cq2 := cq - 10
    let d2 := encode cq2
    if cq2 ≤ 40 then (cq2, d2)
    else qualityLoop encode max_file_size cq2 d2
  else (cq, data)
termination_by cq
decreasing_by omega

/-- Embedding of download_image (lines 24 to 176).  Returns the result
record together with the bytes written to the target file, none when
nothing is written.  Branches in source order: blank URL; cache hit on the
existing file; timeout and other client exceptions; non-200 status; empty
body; the PIL processing path with JPEG quality stepping; and the
processing-failure path that persists the raw body and still reports
success. -/
def download_image (url : List Char) (timeout : Nat) (quality : Nat)
    (max_file_size : Nat) (env : ImageEnv) :
    DownloadResult × Option (List Nat) :=
  if pyStripC url = [] then
    ({ success := false, error_message := some ("Empty URL".toList) }, none)
  else
    let ext := normalizeExt url
    let filename := env.url_hash ++ ext
    if env.file_exists then
      ({ success := true, local_path := some filename,
         file_size := some env.existing_size }, none)
    else
      match env.net with
      | .timeout =>
        ({ success := false,
           error_message := some ("超时 ".toList ++ (toString timeout).toList ++ "秒".toList) },
         none)
      | .raised m =>
        ({ success := false, error_message := some ("下载图片错误: ".toList ++ m) }, none)
      | .ok status body =>
        if status ≠ 200 then
          ({ success := false,
             error_message := some ("HTTP error: ".toList ++ (toString status).toList) },
           none)
        else if body = [] then
          ({ success := false, error_message := some ("Empty response".toList) }, none)
        else if env.decode_ok then
          let isJpeg := extIsJpeg url
          let processed := if isJpeg then env.encode quality else env.encode_other
          let finalData :=
            if max_file_size < processed.length ∧ isJpeg = true then
              (qualityLoop env.encode max_file_size quality processed).2
            else processed
          ({ success := true, local_path := some filename,
             file_size := some finalData.length,
             original_size := some body.length }, some finalData)
        else
          ({ success := true, local_path := some filename,
             file_size := some body.length,
             original_size := some body.length }, some body)

/-! Concrete example states and inputs used by witness and counterexample
theorems. -/

/-- Sample article stub. -/
def artA : MonitorArticle := { url := "https://www.csmonitor.com/a", title := "A" }

/-- Second sample article stub. -/
def artB : MonitorArticle := { url := "https://www.csmonitor.com/b", title := "B" }

/-- Running scheduler with a non-empty processed set. -/
def exC3 : SchedState :=
  { article_queue := [artA], processed_articles := [artB.url], current_index := 0,
    fetching_active := false, scheduler_running := true,
    scheduler_jobs := ["daily_article_fetch", "article_saving"] }

/-- Non-empty queue whose only article is already processed. -/
def exC4 : SchedState :=
  { article_queue := [artA], processed_articles := [artA.url], current_index := 0,
    fetching_active := false, scheduler_running := true, scheduler_jobs := [] }

/-- The state exC4 after one skip pass: the cursor points past the end. -/
def exC4b : SchedState := { exC4 with current_index := 1 }

/-- Queue with one processed and one unprocessed article. -/
def exC4w : SchedState :=
  { article_queue := [artA, artB], processed_articles := [artA.url], current_index := 0,
    fetching_active := false, scheduler_running := true, scheduler_jobs := [] }

/-- Singleton queue with nothing processed and the cursor at the start. -/
def exC7 : SchedState :=
  { article_queue := [artA], processed_articles := [], current_index := 0,
    fetching_active := false, scheduler_running := true, scheduler_jobs := [] }


/-- Two article dicts with the same title and different contents. -/
def exD1 : ArticleData :=
  { title := some ("Breaking News".toList), content := some ("<p>one</p>".toList) }

/-- Second article dict sharing the derived filename of exD1. -/
def exD2 : ArticleData :=
  { title := some ("Breaking News".toList), content := some ("<p>two</p>".toList) }

/-- A page on which no container selector matches. -/
def exSoupC2 : SoupModel :=
  { eza_body := false, div_prem := false, article_tag := false,
    story_content := false, article_body := false, meta_title := none,
    header_html := none, main_image := none, body_parts := [] }

/-- A successful fetch of that page. -/
def exFetchC2 : MakeRequestResult := { error := none, content := some exSoupC2 }

/-- A fetch result whose body is html text. -/
def exFrC1 : FetchResult :=
  { url := "https://www.csmonitor.com/World".toList,
    content_type := some ("text/html; charset=utf-8".toList),
    content := .pyStr ("<html><body><ul><li data-type=\x22csm_article\x22></li></ul></body></html>".toList) }

/-- An image URL with a jpg path. -/
def exUrlImg : List Char := "https://cdn.example.com/photos/pic.jpg".toList

/-- Environment in which the image request yields a 404 status. -/
def exEnv404 : ImageEnv :=
  { url_hash := "abcdef0123".toList, file_exists := false, existing_size := 0,
    net := .ok 404 [], decode_ok := true, encode := fun _ => [], encode_other := [] }

/-- Environment in which the image request times out. -/
def exEnvTimeout : ImageEnv :=
  { url_hash := "abcdef0123".toList, file_exists := false, existing_size := 0,
    net := .timeout, decode_ok := true, encode := fun _ => [], encode_other := [] }

/-- Environment matching the size-budget scenario: a body that decodes, and
a JPEG encoder producing one thousand bytes per quality point, so quality
85 encodes over an eighty-thousand-byte budget of fifty thousand. -/
def exEnvC8 : ImageEnv :=
  { url_hash := "abcdef0123".toList, file_exists := false, existing_size := 0,
    net := .ok 200 [55, 56], decode_ok := true,
    encode := fun q => List.replicate (q * 1000) 0, encode_other := [] }

/-- Code points of a short title with a non-ASCII character. -/
def exTitleCps : List Nat := [72, 105, 32, 19990, 30028]

/-- An all-digit article id. -/
def exIdChars : List Char := "12".toList

end CrawlRead

namespace CrawlRead

/-! Theorems.  Helper lemmas come first, then one theorem per claim with its
witness or counterexample. -/

/-- The normalized cursor is in bounds whenever the queue is non-empty. -/
theorem normIdx_lt (s : SchedState) (h : s.article_queue ≠ []) :
    normIdx s < s.article_queue.length := by
  have hp : 0 < s.article_queue.length := List.length_pos.mpr h
  unfold normIdx
  split <;> omega

/-- Advancing the cursor from an in-bounds position and renormalizing is
addition of one modulo the queue length. -/
theorem normIdx_advance (s : SchedState) (i : Nat) (h : i < s.article_queue.length) :
    normIdx { s with current_index := i + 1 } = (i + 1) % s.article_queue.length := by
  unfold normIdx
  split
  · rename_i hle
    have he : i + 1 = s.article_queue.length := by
      simp only at hle
      omega
    rw [he, Nat.mod_self]
  · rename_i hgt
    have hlt : i + 1 < s.article_queue.length := by
      simp only at hgt
      omega
    rw [Nat.mod_eq_of_lt hlt]

/-- On a non-empty queue the skip branch yields the same state with the
cursor advanced past the normalized read position. -/
theorem processStep_skip (s : SchedState) (hne : s.article_queue ≠ [])
    (hm : (s.article_queue.getD (normIdx s) defaultArticle).url ∈ s.processed_articles) :
    processStep s = .again { s with current_index := normIdx s + 1 } := by
  simp only [processStep, if_neg hne]
  rw [if_pos hm]

/-- On a non-empty queue an unprocessed article at the normalized cursor is
handed to the extractor, with the cursor advanced. -/
theorem processStep_extract (s : SchedState) (hne : s.article_queue ≠ [])
    (hm : (s.article_queue.getD (normIdx s) defaultArticle).url ∉ s.processed_articles) :
    processStep s = .extract (s.article_queue.getD (normIdx s) defaultArticle)
      { s with current_index := normIdx s + 1 } := by
  simp only [processStep, if_neg hne]
  rw [if_neg hm]

/-- The state carried out of one process pass on a non-empty queue is the
input state with the cursor advanced past the read position. -/
theorem stateOf_processStep (s : SchedState) (h : s.article_queue ≠ []) :
    stateOf (processStep s) = { s with current_index := normIdx s + 1 } := by
  by_cases hm : (s.article_queue.getD (normIdx s) defaultArticle).url ∈ s.processed_articles
  · rw [processStep_skip s h hm]
    rfl
  · rw [processStep_extract s h hm]
    rfl

/-- A state on which the skip branch returns the very same state makes the
unbounded recursion of process_next_article run forever: no step budget is
ever enough. -/
theorem processStep_fix_diverges (s : SchedState)
    (h : processStep s = ProcessStepResult.again s) :
    ∀ n, processNextIter n s = none := by
  intro n
  induction n with
  | zero => rfl
  | succ m ih => simp only [processNextIter, h, ih]

/-- If some position within the next n cyclic slots from the current cursor
holds an unprocessed article, the skip recursion returns within n passes. -/
theorem processNextIter_reaches :
    ∀ (n : Nat) (s : SchedState), s.article_queue ≠ [] →
    (∃ k, k < n ∧ unprocAt s ((normIdx s + k) % s.article_queue.length)) →
    (processNextIter n s).isSome = true := by
  intro n
  induction n with
  | zero =>
    intro s _ hk
    obtain ⟨k, hk, _⟩ := hk
    omega
  | succ m ih =>
    intro s hne hk
    obtain ⟨k, hkm, hunp⟩ := hk
    have hi : normIdx s < s.article_queue.length := normIdx_lt s hne
    by_cases hm : (s.article_queue.getD (normIdx s) defaultArticle).url ∈ s.processed_articles
    · have hstep := processStep_skip s hne hm
      have hk0 : k ≠ 0 := by
        intro h0
        subst h0
        rw [Nat.add_zero, Nat.mod_eq_of_lt hi] at hunp
        exact hunp hm
      have hrec : (processNextIter m { s with current_index := normIdx s + 1 }).isSome = true := by
        apply ih
        · exact hne
        · refine ⟨k - 1, by omega, ?_⟩
          have hq2 : ({ s with current_index := normIdx s + 1 } : SchedState).article_queue
              = s.article_queue := rfl
          have hpos : (normIdx { s with current_index := normIdx s + 1 } + (k - 1)) %
              s.article_queue.length = (normIdx s + k) % s.article_queue.length := by
            rw [normIdx_advance s (normIdx s) hi, Nat.mod_add_mod]
            congr 1
            omega
          unfold unprocAt at hunp ⊢
          rw [hq2, hpos]
          exact hunp
      simp only [processNextIter, hstep]
      exact hrec
    · have hstep := processStep_extract s hne hm
      simp only [processNextIter, hstep, Option.isSome_some]

/-- When some queued article is unprocessed, some position within one full
cyclic sweep from the cursor is unprocessed. -/
theorem exists_cyclic_hit (s : SchedState) (hne : s.article_queue ≠ [])
    (ha : ∃ a ∈ s.article_queue, a.url ∉ s.processed_articles) :
    ∃ k, k < s.article_queue.length ∧
      unprocAt s ((normIdx s + k) % s.article_queue.length) := by
  obtain ⟨a, hmem, hnp⟩ := ha
  obtain ⟨j, hj, hja⟩ := List.mem_iff_getElem.mp hmem
  have hlen : 0 < s.article_queue.length := List.length_pos.mpr hne
  have hi : normIdx s ≤ s.article_queue.length := le_of_lt (normIdx_lt s hne)
  refine ⟨(s.article_queue.length + j - normIdx s) % s.article_queue.length,
    Nat.mod_lt _ hlen, ?_⟩
  have hpos : (normIdx s +
      (s.article_queue.length + j - normIdx s) % s.article_queue.length) %
      s.article_queue.length = j := by
    rw [Nat.add_mod_mod]
    have h1 : normIdx s + (s.article_queue.length + j - normIdx s)
        = s.article_queue.length + j := by omega
    rw [h1, Nat.add_mod_left, Nat.mod_eq_of_lt hj]
  rw [hpos]
  unfold unprocAt
  rw [List.getD_eq_getElem s.article_queue defaultArticle hj, hja]
  exact hnp

/-- C3 counterexample: shutdown on a running scheduler with a non-empty
processed set empties the queue but leaves the processed-URL set non-empty,
so the claim that the processed set is empty after shutdown fails at this
state. -/
theorem shutdown_retains_processed_counterexample :
    (shutdown exC3).article_queue = [] ∧ (shutdown exC3).scheduler_running = false ∧
    (shutdown exC3).processed_articles ≠ [] := by
  refine ⟨rfl, rfl, ?_⟩
  decide

/-- C3 amended: after shutdown the scheduler is stopped, its timers are
cancelled when it was running, and the pending queue is empty; the
processed-URL set, the cursor and the fetch flag are retained unchanged.
Calling shutdown while not running is safe and still clears the queue. -/
theorem shutdown_spec (s : SchedState) :
    shutdown s = ⟨[], s.processed_articles, s.current_index, s.fetching_active,
      false, if s.scheduler_running then [] else s.scheduler_jobs⟩ := by
  obtain ⟨q, p, ci, fa, sr, sj⟩ := s
  cases sr <;> simp [shutdown]

/-- C4 counterexample: on a non-empty queue whose every article is already
processed, the skip recursion of process_next_article never returns: after
one pass the state reaches a fixed point of the skip step, so no budget of
passes produces a result. -/
theorem process_next_diverges_counterexample :
    ¬ ∃ n, (processNextIter n exC4).isSome = true := by
  rintro ⟨n, hn⟩
  have h1 : processStep exC4 = ProcessStepResult.again exC4b := by decide
  have h2 : processStep exC4b = ProcessStepResult.again exC4b := by decide
  cases n with
  | zero => simp [processNextIter] at hn
  | succ m =>
    rw [show processNextIter (m + 1) exC4 = processNextIter m exC4b by
      simp only [processNextIter, h1]] at hn
    rw [processStep_fix_diverges exC4b h2 m] at hn
    simp at hn

/-- C4 amended: process_next_article terminates after finitely many
skip-to-next steps whenever the queue is empty or some queued article is
not yet processed; one more pass than the queue length always suffices in
that case.  When every article of a non-empty queue is already processed
the recursion diverges, as the counterexample shows. -/
theorem process_next_terminates (s : SchedState)
    (h : s.article_queue = [] ∨ ∃ a ∈ s.article_queue, a.url ∉ s.processed_articles) :
    (processNextIter (s.article_queue.length + 1) s).isSome = true := by
  rcases h with hq | ha
  · simp only [processNextIter, processStep, if_pos hq, Option.isSome_some]
  · have hne : s.article_queue ≠ [] := by
      obtain ⟨a, hmem, _⟩ := ha
      exact List.ne_nil_of_mem hmem
    obtain ⟨k, hk, hp⟩ := exists_cyclic_hit s hne ha
    exact processNextIter_reaches (s.article_queue.length + 1) s hne ⟨k, by omega, hp⟩

/-- C4 witness: on a queue holding one processed and one unprocessed
article the bounded iteration returns. -/
theorem process_next_terminates_witness :
    (exC4w.article_queue = [] ∨ ∃ a ∈ exC4w.article_queue, a.url ∉ exC4w.processed_articles) ∧
    (processNextIter (exC4w.article_queue.length + 1) exC4w).isSome = true :=
  ⟨by decide, process_next_terminates exC4w (by decide)⟩

/-- C6: in every reachable state of the refresh subsystem at most one
refresh body is in flight and the exclusion flag is set exactly while one
is, so a trigger during an in-flight refresh starts nothing; moreover, at
the function level, a call with the flag set returns at once leaving the
flag set, and a call with the flag clear ends with the flag cleared on
every completion path, including the exception path. -/
theorem refresh_mutual_exclusion :
    (∀ s, RefreshReachable s →
      s.in_flight ≤ 1 ∧ (s.fetching_active = true ↔ s.in_flight = 1)) ∧
    (∀ b, fetch_article_list true b = (false, true)) ∧
    (∀ b, (fetch_article_list false b).2 = false) := by
  refine ⟨?_, ?_, ?_⟩
  · intro s h
    unfold RefreshReachable at h
    induction h with
    | refl => simp [initRefreshSys]
    | tail h1 hstep ih =>
      rename_i b _
      cases hstep with
      | trigger_skip hf => exact ih
      | trigger_run hf =>
        have hne1 : b.in_flight ≠ 1 := by
          intro h1x
          have hx := ih.2.mpr h1x
          rw [hf] at hx
          exact Bool.false_ne_true hx
        have hle := ih.1
        have h0 : b.in_flight = 0 := by omega
        simp [h0]
      | finish hpos =>
        have hle := ih.1
        have h1x : b.in_flight = 1 := by omega
        simp [h1x]
  · intro b
    rfl
  · intro b
    cases b <;> rfl

/-- C6 witness: the state with one refresh in flight is reachable by one
trigger from the initial state and satisfies the exclusion bound. -/
theorem refresh_mutual_exclusion_witness :
    ({ fetching_active := true, in_flight := 1 } : RefreshSys).in_flight ≤ 1 :=
  (refresh_mutual_exclusion.1 { fetching_active := true, in_flight := 1 }
    (Relation.ReflTransGen.single (RefreshStep.trigger_run initRefreshSys rfl))).1

/-- C7 counterexample: on a singleton queue with the cursor at 0, one
process pass leaves the cursor equal to the queue length, outside the
half-open range the claim asserts between operations. -/
theorem cursor_range_counterexample :
    exC7.article_queue ≠ [] ∧
    ¬ ((stateOf (processStep exC7)).current_index <
        (stateOf (processStep exC7)).article_queue.length) := by
  constructor
  · decide
  · decide

/-- C7 amended: whenever the queue is non-empty, the cursor value used to
index the queue is the stored cursor normalized into bounds, the
normalization resets to zero exactly when the stored cursor is at or past
the queue length or already zero, every queue access is in bounds, and
after the pass the stored cursor lies in the closed range up to the queue
length (it equals the length after reading the last slot, and is
renormalized only at the start of the next pass). -/
theorem cursor_range (s : SchedState) (h : s.article_queue ≠ []) :
    normIdx s < s.article_queue.length ∧
    (normIdx s = 0 ↔ s.article_queue.length ≤ s.current_index ∨ s.current_index = 0) ∧
    (stateOf (processStep s)).current_index = normIdx s + 1 ∧
    (stateOf (processStep s)).current_index ≤ s.article_queue.length := by
  have hlt := normIdx_lt s h
  have hst := stateOf_processStep s h
  refine ⟨hlt, ?_, ?_, ?_⟩
  · unfold normIdx
    split
    · rename_i hle
      simp only [true_iff]
      left
      exact hle
    · rename_i hgt
      constructor
      · intro h0
        right
        exact h0
      · intro hor
        rcases hor with hle | h0
        · exact absurd hle hgt
        · exact h0
  · rw [hst]
  · rw [hst]
    simp only
    omega

/-- C7 witness: the amended cursor facts evaluated on the singleton-queue
state. -/
theorem cursor_range_witness :
    exC7.article_queue ≠ [] ∧ normIdx exC7 < exC7.article_queue.length :=
  ⟨by decide, (cursor_range exC7 (by decide)).1⟩

end CrawlRead

namespace CrawlRead

/-- A pattern heads any list it is prepended to. -/
theorem startsWithPat_append (pat rest : List Char) :
    startsWithPat pat (pat ++ rest) = true := by
  induction pat with
  | nil => rfl
  | cons c cs ih => simp [startsWithPat, ih]

/-- The empty pattern is contained in every list. -/
theorem containsSub_nil : ∀ xs : List Char, containsSub [] xs = true
  | [] => rfl
  | _ :: _ => by simp [containsSub, startsWithPat]

/-- A list containing the pattern as a contiguous segment contains it. -/
theorem containsSub_append (pat pre post : List Char) :
    containsSub pat (pre ++ (pat ++ post)) = true := by
  induction pre with
  | nil =>
    simp only [List.nil_append]
    cases pat with
    | nil => exact containsSub_nil _
    | cons c cs =>
      have h1 := startsWithPat_append (c :: cs) post
      simp only [List.cons_append] at h1 ⊢
      simp [containsSub, h1]
  | cons c cs ih => simp [containsSub, ih]

/-- After any save, the derived filename exists in the article directory. -/
theorem fsHas_after_save (d : ArticleData) (now : Nat) (fs : FileSys) :
    fsHas (save_article d now fs).2 (saveFilename d now) = true := by
  unfold save_article fsHas
  by_cases h : (fs.any fun e => e.1 == saveFilename d now) = true
  · simp [h]
  · simp only [Bool.not_eq_true] at h
    rw [if_neg (by simp [h])]
    simp [List.any_append]

/-- C9: once a file with the derived filename exists, a second save with
the same derived filename and any content, equal or different, returns
success and leaves the article directory exactly as it was: an idempotent
skip, never an overwrite. -/
theorem save_article_idempotent (d1 d2 : ArticleData) (now1 now2 : Nat) (fs : FileSys)
    (hname : saveFilename d2 now2 = saveFilename d1 now1)
    (_hdiff : d1.content ≠ d2.content) :
    save_article d2 now2 (save_article d1 now1 fs).2 = (true, (save_article d1 now1 fs).2) := by
  have hh : fsHas (save_article d1 now1 fs).2 (saveFilename d2 now2) = true := by
    rw [hname]
    exact fsHas_after_save d1 now1 fs
  generalize hX : (save_article d1 now1 fs).2 = X at hh ⊢
  unfold save_article
  simp [hh]

/-- C9 witness: the two sample dicts share a derived filename, differ in
content, and the second save on an initially empty directory is a no-op
returning success. -/
theorem save_article_idempotent_witness :
    saveFilename exD2 1 = saveFilename exD1 0 ∧ exD1.content ≠ exD2.content ∧
    save_article exD2 1 (save_article exD1 0 []).2 = (true, (save_article exD1 0 []).2) :=
  ⟨by decide, by decide, save_article_idempotent exD1 exD2 0 1 [] (by decide) (by decide)⟩

/-- C2 counterexample: for a page fetched successfully in which no
structural selector matches a main-content container, extract returns the
descriptive error document but reports success equal to true, not false as
the claim states. -/
theorem extract_no_container_counterexample :
    containerFound exSoupC2 = false ∧
    (extract_single_article artA exFetchC2).success = true ∧
    (extract_single_article artA exFetchC2).content =
      create_html_document noContainerMsg ("Error".toList) := by
  refine ⟨rfl, rfl, rfl⟩

/-- C2 amended: when the page is fetched successfully but no structural
selector matches a main-content container, the returned content is the
non-empty well-formed error document containing the descriptive message,
but the result carries success equal to true: the failure is signalled only
through the document text, not through the success flag. -/
theorem extract_no_container (article : MonitorArticle) (fetch : MakeRequestResult)
    (soup : SoupModel) (hc : fetch.content = some soup) (he : fetch.error = none)
    (hnc : containerFound soup = false) :
    (extract_single_article article fetch).success = true ∧
    (extract_single_article article fetch).content =
      create_html_document noContainerMsg (metaTitleOrError soup) ∧
    (extract_single_article article fetch).content ≠ [] ∧
    containsSub noContainerMsg (extract_single_article article fetch).content = true := by
  have hres : extract_single_article article fetch =
      { url := article.url, title := article.title,
        content := extract_body_from_html soup, success := true } := by
    simp only [extract_single_article, hc, he]
  have hbody : extract_body_from_html soup =
      create_html_document noContainerMsg (metaTitleOrError soup) := by
    simp [extract_body_from_html, hnc]
  refine ⟨by rw [hres], by rw [hres]; exact hbody, ?_, ?_⟩
  · rw [hres]
    show extract_body_from_html soup ≠ []
    rw [hbody]
    unfold create_html_document
    exact List.append_ne_nil_of_right_ne_nil _ (by decide)
  · rw [hres]
    show containsSub noContainerMsg (extract_body_from_html soup) = true
    rw [hbody]
    unfold create_html_document
    have h := containsSub_append noContainerMsg
      (docHead ++ metaTitleOrError soup ++ "</title>".toList ++ extractorStyle.toList ++
        "</head><body>".toList)
      ("</body></html>".toList)
    simp only [List.append_assoc] at h ⊢
    exact h

/-- C2 witness: the amended facts evaluated at the concrete page on which
no selector matches. -/
theorem extract_no_container_witness :
    containerFound exSoupC2 = false ∧
    (extract_single_article artA exFetchC2).success = true :=
  ⟨rfl, (extract_no_container artA exFetchC2 exSoupC2 rfl rfl rfl).1⟩

/-- C1: for every fetch result whose content type contains the html media
type and whose body is a string, parse_article_list returns a failure
response, because its try block calls parse_html with two positional
arguments while parse_html accepts one, so the call raises TypeError on
every input and the except branch reports a parse failure; the success
response with extracted stubs that the claim describes is unreachable. -/
theorem parse_article_list_fails_on_html (website sect : String) (fr : FetchResult)
    (s : List Char) (hct : contentTypeIsHtml fr.content_type = true)
    (hc : fr.content = PyContent.pyStr s) :
    (parse_article_list website sect (some fr)).success = false ∧
    (parse_article_list website sect (some fr)).error =
      some ("解析HTML内容失败: ".toList ++
        "parse_html() takes 1 positional argument but 2 were given".toList) := by
  simp only [parse_article_list]
  rw [hc]
  simp [hct, parse_html_two_arg_call]

/-- C1 witness: the failure response evaluated on a concrete html listing
fetch result. -/
theorem parse_article_list_fails_witness :
    contentTypeIsHtml exFrC1.content_type = true ∧
    (parse_article_list "csmonitor" "World" (some exFrC1)).success = false :=
  ⟨by decide, (parse_article_list_fails_on_html "csmonitor" "World" exFrC1 _ (by decide) rfl).1⟩


/-- C5 amended: download_image does not fall back to the original remote
URL.  With a non-blank URL and no cache hit: a timeout, a non-200 status or
an empty body each yield a failure result carrying only a descriptive error
message, with no local path and nothing written; a body that PIL cannot
process is persisted raw and reported as success with the local path.  No
branch returns the original URL, and since the extractor never invokes the
downloader, article extraction results are unaffected by image failures. -/
theorem download_image_failure_modes (url : List Char) (timeout quality mfs : Nat)
    (env : ImageEnv) (hurl : pyStripC url ≠ []) (hcache : env.file_exists = false) :
    (env.net = NetOutcome.timeout →
      download_image url timeout quality mfs env =
        ({ success := false,
           error_message := some ("超时 ".toList ++ (toString timeout).toList ++ "秒".toList) },
         none)) ∧
    (∀ status body, env.net = NetOutcome.ok status body → status ≠ 200 →
      download_image url timeout quality mfs env =
        ({ success := false,
           error_message := some ("HTTP error: ".toList ++ (toString status).toList) },
         none)) ∧
    (env.net = NetOutcome.ok 200 [] →
      download_image url timeout quality mfs env =
        ({ success := false, error_message := some ("Empty response".toList) }, none)) ∧
    (∀ body, env.net = NetOutcome.ok 200 body → body ≠ [] → env.decode_ok = false →
      download_image url timeout quality mfs env =
        ({ success := true, local_path := some (env.url_hash ++ normalizeExt url),
           file_size := some body.length, original_size := some body.length },
         some body)) := by
  refine ⟨?_, ?_, ?_, ?_⟩
  · intro hnet
    simp [download_image, hurl, hcache, hnet]
  · intro status body hnet hst
    simp [download_image, hurl, hcache, hnet, hst]
  · intro hnet
    simp [download_image, hurl, hcache, hnet]
  · intro body hnet hbody hdec
    simp [download_image, hurl, hcache, hnet, hbody, hdec]

/-- C5 counterexample: on a 404 response the downloader returns a failure
result whose only payload is the error text; it carries no path and in
particular not the original remote URL, contrary to the claim that the
original URL is returned as the fallback result. -/
theorem download_image_no_url_fallback_counterexample :
    (download_image exUrlImg 25 85 512000 exEnv404).1.success = false ∧
    (download_image exUrlImg 25 85 512000 exEnv404).1.local_path = none ∧
    (download_image exUrlImg 25 85 512000 exEnv404).1.error_message =
      some ("HTTP error: 404".toList) ∧
    (download_image exUrlImg 25 85 512000 exEnv404).2 = none := by
  refine ⟨rfl, rfl, by decide, rfl⟩

/-- C5 witness: the timeout branch evaluated at a concrete URL and
environment. -/
theorem download_image_failure_witness :
    pyStripC exUrlImg ≠ [] ∧
    download_image exUrlImg 25 85 512000 exEnvTimeout =
      ({ success := false,
         error_message := some ("超时 ".toList ++ (toString 25).toList ++ "秒".toList) },
       none) :=
  ⟨by decide,
   (download_image_failure_modes exUrlImg 25 85 512000 exEnvTimeout (by decide) rfl).1 rfl⟩

/-- Characterization of the quality-stepping loop entered above the floor
with oversized data: it stops at the first stepped quality whose encoding
fits the budget or which is at or below 40, whichever comes first, stepping
in decrements of exactly 10, and every earlier stepped quality produced
oversized data while staying above the floor. -/
theorem qualityLoop_spec (encode : Nat → List Nat) (mfs : Nat) :
    ∀ cq data, 40 < cq → mfs < data.length →
    ∃ k, 1 ≤ k ∧
      qualityLoop encode mfs cq data = (cq - 10 * k, encode (cq - 10 * k)) ∧
      ((encode (cq - 10 * k)).length ≤ mfs ∨ cq - 10 * k ≤ 40) ∧
      (∀ j, 1 ≤ j → j < k → mfs < (encode (cq - 10 * j)).length ∧ 40 < cq - 10 * j) := by
  intro cq
  induction cq using Nat.strong_induction_on with
  | _ cq ih =>
    intro data h40 hlen
    rw [qualityLoop, dif_pos (And.intro hlen h40)]
    by_cases hle : cq - 10 ≤ 40
    · refine ⟨1, le_refl 1, ?_, ?_, ?_⟩
      · rw [if_pos hle]
      · right
        omega
      · intro j hj1 hj2
        omega
    · rw [if_neg hle]
      by_cases hbig : mfs < (encode (cq - 10)).length
      · obtain ⟨k1, hk1, heq, hstop, hmid⟩ := ih (cq - 10) (by omega) (encode (cq - 10))
          (by omega) hbig
        refine ⟨k1 + 1, by omega, ?_, ?_, ?_⟩
        · rw [heq]
          have hqq : cq - 10 - 10 * k1 = cq - 10 * (k1 + 1) := by omega
          rw [hqq]
        · have hqq : cq - 10 - 10 * k1 = cq - 10 * (k1 + 1) := by omega
          rw [← hqq]
          exact hstop
        · intro j hj1 hjk
          rcases Nat.eq_or_lt_of_le hj1 with hj | hj
          · have hjq : cq - 10 * j = cq - 10 := by omega
            rw [hjq]
            exact ⟨hbig, by omega⟩
          · have h2 : 1 ≤ j - 1 := by omega
            have h3 : j - 1 < k1 := by omega
            have hm := hmid (j - 1) h2 h3
            have hq2 : cq - 10 - 10 * (j - 1) = cq - 10 * j := by omega
            rw [hq2] at hm
            exact hm
      · refine ⟨1, le_refl 1, ?_, ?_, ?_⟩
        · rw [qualityLoop, dif_neg (fun hand => hbig hand.1)]
        · left
          have hjq : cq - 10 * 1 = cq - 10 := by omega
          rw [hjq]
          omega
        · intro j hj1 hj2
          omega

/-- C8: for a JPEG whose first encoding at the configured quality exceeds
the byte budget, download_image lowers the quality by exactly 10 per step
and re-encodes until the encoding is within the budget or the quality has
reached or passed the floor of 40, whichever comes first, and it persists
and reports the final re-encoded data. -/
theorem download_image_quality_stepping (url : List Char) (timeout quality mfs : Nat)
    (env : ImageEnv) (body : List Nat)
    (hurl : pyStripC url ≠ []) (hcache : env.file_exists = false)
    (hnet : env.net = NetOutcome.ok 200 body) (hbody : body ≠ [])
    (hdec : env.decode_ok = true) (hjpeg : extIsJpeg url = true)
    (hbig : mfs < (env.encode quality).length) (hq : 40 < quality) :
    ∃ k, 1 ≤ k ∧
      (download_image url timeout quality mfs env).2 =
        some (env.encode (quality - 10 * k)) ∧
      (download_image url timeout quality mfs env).1 =
        { success := true, local_path := some (env.url_hash ++ normalizeExt url),
          file_size := some (env.encode (quality - 10 * k)).length,
          original_size := some body.length } ∧
      ((env.encode (quality - 10 * k)).length ≤ mfs ∨ quality - 10 * k ≤ 40) ∧
      (∀ j, 1 ≤ j → j < k → mfs < (env.encode (quality - 10 * j)).length ∧
        40 < quality - 10 * j) := by
  obtain ⟨k, hk1, heq, hstop, hmid⟩ :=
    qualityLoop_spec env.encode mfs quality (env.encode quality) hq hbig
  have hdl : download_image url timeout quality mfs env =
      ({ success := true, local_path := some (env.url_hash ++ normalizeExt url),
         file_size := some (env.encode (quality - 10 * k)).length,
         original_size := some body.length },
       some (env.encode (quality - 10 * k))) := by
    simp only [download_image]
    rw [if_neg hurl]
    rw [hcache]
    simp only [Bool.false_eq_true, if_false]
    rw [hnet]
    simp only [ne_eq, not_true_eq_false, if_false, hbody, hdec, if_true, hjpeg]
    rw [if_pos (And.intro hbig trivial), heq]
  exact ⟨k, hk1, by rw [hdl], by rw [hdl], hstop, hmid⟩

/-- C8 witness: with a fifty-thousand-byte budget and an encoder yielding a
thousand bytes per quality point, stepping from quality 85 produces a
persisted encoding at a stepped-down quality. -/
theorem download_image_quality_stepping_witness :
    40 < 85 ∧ 50000 < (exEnvC8.encode 85).length ∧
    ∃ k, 1 ≤ k ∧ (download_image exUrlImg 30 85 50000 exEnvC8).2 =
      some (exEnvC8.encode (85 - 10 * k)) := by
  have hlen : 50000 < (exEnvC8.encode 85).length := by
    show 50000 < (List.replicate (85 * 1000) 0).length
    rw [List.length_replicate]
    norm_num
  refine ⟨by norm_num, hlen, ?_⟩
  obtain ⟨k, hk1, hdata, _⟩ := download_image_quality_stepping exUrlImg 30 85 50000 exEnvC8
    [55, 56] (by decide) rfl rfl (by decide) rfl (by decide) hlen (by norm_num)
  exact ⟨k, hk1, hdata⟩


/-- Induction on byte lists in the three-byte groups of Base64. -/
theorem chunk3Induction {P : List Nat → Prop} (h0 : P []) (h1 : ∀ a, P [a])
    (h2 : ∀ a b, P [a, b]) (h3 : ∀ a b c rest, P rest → P (a :: b :: c :: rest)) :
    ∀ xs, P xs
  | [] => h0
  | [a] => h1 a
  | [a, b] => h2 a b
  | a :: b :: c :: rest => h3 a b c rest (chunk3Induction h0 h1 h2 h3 rest)

/-- Decoding an alphabet character recovers its six-bit value. -/
theorem b64Index_b64Char : ∀ n, n < 64 → b64Index (b64Char n) = some n := by decide

/-- Alphabet characters are not the padding character. -/
theorem b64Char_ne_eq : ∀ n, n < 64 → b64Char n ≠ '=' := by decide

/-- No Base64 output character is a dot. -/
theorem b64Char_ne_dot (n : Nat) : b64Char n ≠ '.' := by
  by_cases h : n < 64
  · have hh : ∀ m, m < 64 → b64Char m ≠ '.' := by decide
    exact hh n h
  · unfold b64Char
    rw [List.getD_eq_default]
    · decide
    · have hl : b64Alphabet.length = 64 := rfl
      omega

/-- Every character of a Base64 encoding is an alphabet character or the
padding character, hence never a dot. -/
theorem b64EncodeBytes_ne_dot : ∀ bs : List Nat, ∀ ch ∈ b64EncodeBytes bs, ch ≠ '.' := by
  intro bs
  induction bs using chunk3Induction with
  | h0 => intro ch hch; simp [b64EncodeBytes] at hch
  | h1 a =>
    intro ch hch
    simp only [b64EncodeBytes, List.mem_cons, List.not_mem_nil, or_false] at hch
    rcases hch with h | h | h | h <;> subst h
    · exact b64Char_ne_dot _
    · exact b64Char_ne_dot _
    · decide
    · decide
  | h2 a b =>
    intro ch hch
    simp only [b64EncodeBytes, List.mem_cons, List.not_mem_nil, or_false] at hch
    rcases hch with h | h | h | h <;> subst h
    · exact b64Char_ne_dot _
    · exact b64Char_ne_dot _
    · exact b64Char_ne_dot _
    · decide
  | h3 a b c rest ih =>
    intro ch hch
    simp only [b64EncodeBytes, List.mem_cons] at hch
    rcases hch with h | h | h | h | h
    · subst h; exact b64Char_ne_dot _
    · subst h; exact b64Char_ne_dot _
    · subst h; exact b64Char_ne_dot _
    · subst h; exact b64Char_ne_dot _
    · exact ih ch h

/-- The Base64 decoder inverts the encoder on byte lists. -/
theorem b64_roundtrip : ∀ bs : List Nat, (∀ b ∈ bs, b < 256) →
    b64DecodeChars (b64EncodeBytes bs) = some bs := by
  intro bs
  induction bs using chunk3Induction with
  | h0 => intro _; rfl
  | h1 a =>
    intro hb
    have ha : a < 256 := hb a (by simp)
    simp only [b64EncodeBytes, b64DecodeChars]
    rw [if_pos (⟨by trivial, by trivial, by trivial⟩ : _ ∧ _ ∧ _)]
    rw [b64Index_b64Char (a / 4) (by omega), b64Index_b64Char (a % 4 * 16) (by omega)]
    simp only [Option.some.injEq, List.cons.injEq, and_true]
    omega
  | h2 a b =>
    intro hb
    have ha : a < 256 := hb a (by simp)
    have hbb : b < 256 := hb b (by simp)
    simp only [b64EncodeBytes, b64DecodeChars]
    rw [if_neg (fun h => b64Char_ne_eq (b % 16 * 4) (by omega) h.2.1)]
    rw [if_pos (⟨by trivial, by trivial⟩ : _ ∧ _)]
    rw [b64Index_b64Char (a / 4) (by omega),
      b64Index_b64Char (a % 4 * 16 + b / 16) (by omega),
      b64Index_b64Char (b % 16 * 4) (by omega)]
    simp only [Option.some.injEq, List.cons.injEq, and_true]
    constructor
    · omega
    · omega
  | h3 a b c rest ih =>
    intro hb
    have ha : a < 256 := hb a (by simp)
    have hbb : b < 256 := hb b (by simp)
    have hcc : c < 256 := hb c (by simp)
    have hrest := ih (fun x hx => hb x (by simp [hx]))
    simp only [b64EncodeBytes, b64DecodeChars]
    rw [if_neg (fun h => b64Char_ne_eq (c % 64) (by omega) h.2.2)]
    rw [if_neg (fun h => b64Char_ne_eq (c % 64) (by omega) h.2)]
    rw [b64Index_b64Char (a / 4) (by omega),
      b64Index_b64Char (a % 4 * 16 + b / 16) (by omega),
      b64Index_b64Char (b % 16 * 4 + c / 64) (by omega),
      b64Index_b64Char (c % 64) (by omega), hrest]
    simp only [Option.some.injEq, List.cons.injEq, and_true]
    refine ⟨by omega, by omega, by omega⟩

/-- Every byte of the UTF-8 encoding of one code point is below 256. -/
theorem utf8EncodeCp_lt_256 (c : Nat) (hc : c < 1114112) :
    ∀ b ∈ utf8EncodeCp c, b < 256 := by
  intro b hb
  unfold utf8EncodeCp at hb
  split_ifs at hb with h1 h2 h3
  · simp at hb; omega
  · simp at hb; rcases hb with h | h <;> omega
  · simp at hb; rcases hb with h | h | h <;> omega
  · simp at hb; rcases hb with h | h | h | h <;> omega

/-- Every byte of the UTF-8 encoding of a code-point list is below 256. -/
theorem utf8Encode_lt_256 : ∀ cs : List Nat, (∀ c ∈ cs, c < 1114112) →
    ∀ b ∈ utf8Encode cs, b < 256 := by
  intro cs
  induction cs with
  | nil => intro _ b hb; simp [utf8Encode] at hb
  | cons c cs ih =>
    intro hc b hb
    simp only [utf8Encode, List.mem_append] at hb
    rcases hb with h | h
    · exact utf8EncodeCp_lt_256 c (hc c (by simp)) b h
    · exact ih (fun x hx => hc x (by simp [hx])) b h

/-- Unfolding of the UTF-8 decoder given the one-step result. -/
theorem utf8Decode_step (b0 : Nat) (rest : List Nat) (c : Nat) (rest2 : List Nat)
    (h : utf8DecodeOne b0 rest = some (c, rest2)) :
    utf8Decode (b0 :: rest) = (utf8Decode rest2).map (c :: ·) := by
  rw [utf8Decode]
  split
  · rename_i cp hcp
    rw [h] at hcp
    cases hcp
    rfl
  · rename_i hnone
    rw [h] at hnone
    cases hnone

/-- One decode step on an ASCII leading byte. -/
theorem utf8DecodeOne_one (b0 : Nat) (rest : List Nat) (h : b0 < 128) :
    utf8DecodeOne b0 rest = some (b0, rest) := by
  simp only [utf8DecodeOne]
  rw [if_pos h]

/-- One decode step on a two-byte leading byte. -/
theorem utf8DecodeOne_two (b0 b1 : Nat) (rest : List Nat) (h1 : ¬ b0 < 128)
    (h2 : ¬ b0 < 192) (h3 : b0 < 224) :
    utf8DecodeOne b0 (b1 :: rest) = some ((b0 - 192) * 64 + (b1 - 128), rest) := by
  simp only [utf8DecodeOne]
  rw [if_neg h1, if_neg h2, if_pos h3]

/-- One decode step on a three-byte leading byte. -/
theorem utf8DecodeOne_three (b0 b1 b2 : Nat) (rest : List Nat) (h1 : ¬ b0 < 128)
    (h2 : ¬ b0 < 192) (h3 : ¬ b0 < 224) (h4 : b0 < 240) :
    utf8DecodeOne b0 (b1 :: b2 :: rest) =
      some ((b0 - 224) * 4096 + (b1 - 128) * 64 + (b2 - 128), rest) := by
  simp only [utf8DecodeOne]
  rw [if_neg h1, if_neg h2, if_neg h3, if_pos h4]

/-- One decode step on a four-byte leading byte. -/
theorem utf8DecodeOne_four (b0 b1 b2 b3 : Nat) (rest : List Nat) (h1 : ¬ b0 < 128)
    (h2 : ¬ b0 < 192) (h3 : ¬ b0 < 224) (h4 : ¬ b0 < 240) :
    utf8DecodeOne b0 (b1 :: b2 :: b3 :: rest) =
      some ((b0 - 240) * 262144 + (b1 - 128) * 4096 + (b2 - 128) * 64 + (b3 - 128), rest) := by
  simp only [utf8DecodeOne]
  rw [if_neg h1, if_neg h2, if_neg h3, if_neg h4]

/-- The UTF-8 decoder inverts the encoder on code points of the Unicode
range. -/
theorem utf8_roundtrip : ∀ cs : List Nat, (∀ c ∈ cs, c < 1114112) →
    utf8Decode (utf8Encode cs) = some cs := by
  intro cs
  induction cs with
  | nil =>
    intro _
    rw [show utf8Encode [] = [] from rfl, utf8Decode]
  | cons c cs ih =>
    intro hc
    have hcc : c < 1114112 := hc c (by simp)
    have hrest := ih (fun x hx => hc x (by simp [hx]))
    simp only [utf8Encode, utf8EncodeCp]
    by_cases h1 : c < 128
    · rw [if_pos h1]
      simp only [List.cons_append, List.nil_append]
      rw [utf8Decode_step c _ c _ (utf8DecodeOne_one c _ h1), hrest]
      rfl
    · rw [if_neg h1]
      by_cases h2 : c < 2048
      · rw [if_pos h2]
        simp only [List.cons_append, List.nil_append]
        rw [utf8Decode_step _ _ _ _
          (utf8DecodeOne_two _ _ _ (by omega) (by omega) (by omega)), hrest]
        simp only [Option.map_some', Option.some.injEq, List.cons.injEq, and_true]
        omega
      · rw [if_neg h2]
        by_cases h3 : c < 65536
        · rw [if_pos h3]
          simp only [List.cons_append, List.nil_append]
          rw [utf8Decode_step _ _ _ _
            (utf8DecodeOne_three _ _ _ _ (by omega) (by omega) (by omega) (by omega)), hrest]
          simp only [Option.map_some', Option.some.injEq, List.cons.injEq, and_true]
          omega
        · rw [if_neg h3]
          simp only [List.cons_append, List.nil_append]
          rw [utf8Decode_step _ _ _ _
            (utf8DecodeOne_four _ _ _ _ _ (by omega) (by omega) (by omega) (by omega)), hrest]
          simp only [Option.map_some', Option.some.injEq, List.cons.injEq, and_true]
          omega

/-- Removing the html extension leaves a dot-free prefix untouched and
strips the trailing extension. -/
theorem removeHtmlAll_append (xs : List Char) (hnd : ∀ c ∈ xs, c ≠ '.') :
    removeHtmlAll (xs ++ ".html".toList) = xs := by
  induction xs with
  | nil =>
    simp only [List.nil_append]
    simp [removeHtmlAll, startsWithPat]
  | cons c cs ih =>
    have hc : c ≠ '.' := hnd c (by simp)
    have hbeq : ('.' == c) = false := by
      rw [beq_eq_false_iff_ne]
      exact fun h => hc h.symm
    rw [List.cons_append]
    rw [removeHtmlAll]
    rw [if_neg (by
      simp only [show (".html".toList : List Char) = '.' :: 'h' :: 't' :: 'm' :: 'l' :: []
        from rfl, startsWithPat, hbeq, Bool.false_and]
      exact Bool.false_ne_true)]
    rw [ih (fun x hx => hnd x (by simp [hx]))]

/-- Splitting at the first underscore of a list whose prefix holds no
underscore separates that prefix. -/
theorem splitOnce_append (xs ys : List Char) (h : ∀ c ∈ xs, c ≠ '_') :
    splitOnceUnderscore (xs ++ '_' :: ys) = (xs, some ys) := by
  induction xs with
  | nil => simp [splitOnceUnderscore]
  | cons c cs ih =>
    have hb : (c == '_') = false := by
      rw [beq_eq_false_iff_ne]
      exact h c (by simp)
    simp only [List.cons_append, splitOnceUnderscore, hb, Bool.false_eq_true, if_false,
      List.append_eq]
    rw [ih (fun x hx => h x (by simp [hx]))]

/-- C10: for a title that is not all whitespace, with code points in the
Unicode range, and an all-digit article id, decoding the encoded filename
returns the original title: the Base64 title encoding round-trips through
its decoder when an id prefix is present. -/
theorem encode_decode_roundtrip (title : List Nat) (article_id : List Char) (now : Nat)
    (hws : pyStripCp title ≠ []) (hcp : ∀ c ∈ title, c < 1114112)
    (hid : pyIsDigitStr article_id = true) :
    decode_title_from_filename (encode_title_to_filename title article_id now) = title := by
  have hdig : ∀ c ∈ article_id, c.isDigit = true := by
    intro c hcm
    have h2 := (Bool.and_eq_true _ _).mp hid
    exact List.all_eq_true.mp h2.2 c hcm
  have hidne : article_id ≠ [] := by
    intro h
    rw [h] at hid
    simp [pyIsDigitStr] at hid
  have henc : encode_title_to_filename title article_id now =
      article_id ++ '_' :: (b64EncodeBytes (utf8Encode title) ++ ".html".toList) := by
    simp only [encode_title_to_filename]
    rw [if_neg hws, if_pos hidne]
    simp [List.append_assoc]
  rw [henc]
  have hnd : ∀ ch ∈ article_id ++ '_' :: b64EncodeBytes (utf8Encode title), ch ≠ '.' := by
    intro ch hch
    rcases List.mem_append.mp hch with h | h
    · intro heq
      have := hdig ch h
      rw [heq] at this
      exact absurd this (by decide)
    · rcases List.mem_cons.mp h with h2 | h2
      · rw [h2]; decide
      · exact b64EncodeBytes_ne_dot _ ch h2
  have h1 : removeHtmlAll
      (article_id ++ '_' :: (b64EncodeBytes (utf8Encode title) ++ ".html".toList)) =
      article_id ++ '_' :: b64EncodeBytes (utf8Encode title) := by
    have hm := removeHtmlAll_append (article_id ++ '_' :: b64EncodeBytes (utf8Encode title)) hnd
    simpa [List.append_assoc] using hm
  have h2 : splitOnceUnderscore (article_id ++ '_' :: b64EncodeBytes (utf8Encode title)) =
      (article_id, some (b64EncodeBytes (utf8Encode title))) :=
    splitOnce_append _ _ (by
      intro c hcm heq
      have := hdig c hcm
      rw [heq] at this
      exact absurd this (by decide))
  simp only [decode_title_from_filename, h1, h2, hid, if_true]
  rw [b64_roundtrip (utf8Encode title) (utf8Encode_lt_256 title hcp)]
  simp only [utf8_roundtrip title hcp]

/-- C10 witness: the round trip evaluated on a concrete title with a
non-ASCII character and the article id 12. -/
theorem encode_decode_roundtrip_witness :
    pyStripCp exTitleCps ≠ [] ∧ pyIsDigitStr exIdChars = true ∧
    decode_title_from_filename (encode_title_to_filename exTitleCps exIdChars 7) = exTitleCps :=
  ⟨by decide, by decide,
   encode_decode_roundtrip exTitleCps exIdChars 7 (by decide) (by decide) (by decide)⟩

end CrawlRead
